import Mathlib

/-! Shallow embedding of the clinical-trials analytics module (src/analytics.py):
the `load_data` cleaning pipeline and the aggregators
`calculate_summary_statistics`, `site_performance_analysis`,
`age_group_analysis`, `temporal_analysis`, `correlation_analysis`.

Tabular data is modelled as lists of records; pandas missing values (NaN)
are modelled with `Option`; exact rational arithmetic stands for float
arithmetic; Python `round` is round-half-to-even.  Group-by keys are sorted
ascending, as pandas `groupby(sort=True)` (the default) does. -/

namespace Clinical

/-- Missing-value markers: the strings replaced by `pd.NA` at analytics.py
line 53 (`'Null'`, `'null'`, `'NULL'`, `''`, `' '`); the empty string also
covers fields the CSV reader itself reads as NaN. -/
def isNullMarker (s : String) : Bool :=
  ["Null", "null", "NULL", "", " "].contains s

/-- One raw CSV row: the six columns, all as the strings read from the file. -/
structure RawRow where
  patient_id : String
  trial_site : String
  enrollment_date : String
  age : String
  adverse_event : String
  completed_trial : String
deriving DecidableEq

/-- Calendar date, the result of parsing `enrollment_date`. -/
structure Date where
  year : Nat
  month : Nat
  day : Nat
deriving DecidableEq

def isLeapYear (y : Nat) : Bool :=
  (y % 4 = 0 && y % 100 ≠ 0) || y % 400 = 0

def daysInMonth (y m : Nat) : Nat :=
  if m = 2 then (if isLeapYear y then 29 else 28)
  else if m = 4 || m = 6 || m = 9 || m = 11 then 30
  else 31

/-- Splitting a character list at a separator, the semantics of Python /
pandas `split` on a one-character separator. -/
def splitChar (sep : Char) : List Char → List (List Char)
  | [] => [[]]
  | c :: cs =>
    match splitChar sep cs, decide (c = sep) with
    | r, true => [] :: r
    | [], false => [[c]]
    | h :: t, false => (c :: h) :: t

def digitsToNat? (cs : List Char) : Option Nat :=
  if cs.isEmpty then none
  else if cs.all (·.isDigit) then
    some (cs.foldl (fun n c => 10 * n + (c.toNat - 48)) 0)
  else none

/-- Parsing of `pd.to_datetime(..., errors='coerce')` (line 67) on the
ISO `YYYY-MM-DD` strings this data set uses: an invalid date yields NaT,
modelled as `none`. -/
def parseDate (s : String) : Option Date :=
  match splitChar '-' s.data with
  | [ys, ms, ds] =>
    match digitsToNat? ys, digitsToNat? ms, digitsToNat? ds with
    | some y, some m, some d =>
        if 1 ≤ m && m ≤ 12 && 1 ≤ d && d ≤ daysInMonth y m then
          some ⟨y, m, d⟩
        else none
    | _, _, _ => none
  | _ => none

def parseMagnitude (cs : List Char) : Option ℚ :=
  match splitChar '.' cs with
  | [ip] => (digitsToNat? ip).map fun n => (n : ℚ)
  | [ip, fp] =>
    match digitsToNat? ip, digitsToNat? fp with
    | some n, some f => some ((n : ℚ) + (f : ℚ) / 10 ^ fp.length)
    | _, _ => none
  | _ => none

/-- Parsing of `pd.to_numeric(..., errors='coerce')` (line 70): an optional
sign, an integer part and an optional decimal fraction; anything else
becomes NaN, modelled as `none`. -/
def parseNumber (s : String) : Option ℚ :=
  match s.data with
  | '-' :: rest => (parseMagnitude rest).map fun q => -q
  | l => parseMagnitude l

/-- ASCII lower-casing plus strip of surrounding whitespace: the
`.str.lower().str.strip()` of lines 73 and 76 (the values compared against
are ASCII, so ASCII case folding is all that can matter). -/
def lowerTrim (s : String) : String :=
  ⟨(((s.data.map Char.toLower).dropWhile Char.isWhitespace).reverse.dropWhile
      Char.isWhitespace).reverse⟩

/-- Boolean normalisation of analytics.py lines 73-77: lower-case the string,
strip surrounding whitespace, and test membership in `{"true","1","yes"}`;
every other value becomes `false`. -/
def parseBool (s : String) : Bool :=
  ["true", "1", "yes"].contains (lowerTrim s)

/-- The four categorical labels produced by `pd.cut` at line 84. -/
inductive AgeGroup
  | g18_30
  | g31_50
  | g51_70
  | g71_80
deriving DecidableEq

def AgeGroup.label : AgeGroup → String
  | .g18_30 => "18-30"
  | .g31_50 => "31-50"
  | .g51_70 => "51-70"
  | .g71_80 => "71-80"

/-- Binning of `pd.cut(df.age, bins=[0,30,50,70,100], labels=[...])`
(line 84): right-closed bins `(0,30], (30,50], (50,70], (70,100]`; a value
outside every bin gets the null category `none` (the row is NOT dropped). -/
def ageGroupOf (a : ℚ) : Option AgeGroup :=
  if a ≤ 0 then none
  else if a ≤ 30 then some .g18_30
  else if a ≤ 50 then some .g31_50
  else if a ≤ 70 then some .g51_70
  else if a ≤ 100 then some .g71_80
  else none

/-- One cleaned row, after coercions and the two derived columns. -/
structure CleanRow where
  patient_id : String
  trial_site : String
  enrollment_date : Date
  age : ℚ
  adverse_event : Bool
  completed_trial : Bool
  age_group : Option AgeGroup
  enrollment_month : Nat
deriving DecidableEq

/-- Row-level missing test used by `df.dropna(axis=0, how='any')` (line 59):
only columns that survived the column drop are consulted, hence the two
flags for the columns the later code never requires by name before the drop. -/
def rowHasMissing (keepPid keepSite : Bool) (r : RawRow) : Bool :=
  (keepPid && isNullMarker r.patient_id) ||
  (keepSite && isNullMarker r.trial_site) ||
  isNullMarker r.enrollment_date || isNullMarker r.age ||
  isNullMarker r.adverse_event || isNullMarker r.completed_trial

/-- Cleaning of a single row (lines 59-87): drop it if a kept column is
missing or the date or age coercion fails; otherwise coerce the booleans,
bin the age and extract the enrollment month. -/
def cleanRow (keepPid keepSite : Bool) (r : RawRow) : Option CleanRow :=
  if rowHasMissing keepPid keepSite r then none
  else
    match parseDate r.enrollment_date, parseNumber r.age with
    | some d, some a =>
        some { patient_id := r.patient_id
               trial_site := r.trial_site
               enrollment_date := d
               age := a
               adverse_event := parseBool r.adverse_event
               completed_trial := parseBool r.completed_trial
               age_group := ageGroupOf a
               enrollment_month := d.month }
    | _, _ => none

/-- A cleaned frame: which of the two by-name-optional columns survived the
all-missing column drop, plus the cleaned rows. -/
structure Frame where
  hasPid : Bool
  hasSite : Bool
  rows : List CleanRow
deriving DecidableEq

/-- A column survives `df.dropna(axis=1, how='all')` (line 56) iff at least
one of its values is not a missing marker. -/
def colKept (rows : List RawRow) (f : RawRow → String) : Bool :=
  rows.any fun r => !(isNullMarker (f r))

/-- `load_data` on an already parsed CSV (lines 53-89): drop all-missing
columns, drop rows with a missing value in a kept column, coerce, derive.
If one of the four columns addressed by name at lines 67-77 was dropped,
the `KeyError` raised there escapes (re-raised at line 93), in the order
the lines execute. -/
def load_data (rows : List RawRow) : Except String Frame :=
  if !(colKept rows (·.enrollment_date)) then .error "KeyError: enrollment_date"
  else if !(colKept rows (·.age)) then .error "KeyError: age"
  else if !(colKept rows (·.adverse_event)) then .error "KeyError: adverse_event"
  else if !(colKept rows (·.completed_trial)) then .error "KeyError: completed_trial"
  else
    .ok ⟨colKept rows (·.patient_id), colKept rows (·.trial_site),
         rows.filterMap (cleanRow (colKept rows (·.patient_id)) (colKept rows (·.trial_site)))⟩

/-! Sorting.  Pandas `groupby(sort=True)` (the default) emits groups with
keys sorted ascending; `insort`/`isort` is a stable insertion sort used to
model both that key ordering and `sort_values`. -/

def insort {α : Type} (le : α → α → Bool) (x : α) : List α → List α
  | [] => [x]
  | y :: ys => if le x y then x :: y :: ys else y :: insort le x ys

def isort {α : Type} (le : α → α → Bool) : List α → List α
  | [] => []
  | x :: xs => insort le x (isort le xs)

/-- Lexicographic comparison of two character lists by code point: the
ordering Python uses on `str`, hence the ordering of pandas group keys and
sorted category values for string columns. -/
def lexLe : List Char → List Char → Bool
  | [], _ => true
  | _ :: _, [] => false
  | a :: as, b :: bs =>
    if a.toNat < b.toNat then true
    else if b.toNat < a.toNat then false
    else lexLe as bs

def strLe (a b : String) : Bool := lexLe a.data b.data

/-- Strict code-point lexicographic order on strings. -/
def strLt (a b : String) : Prop := strLe a b = true ∧ a ≠ b

def natLe (a b : Nat) : Bool := decide (a ≤ b)

/-- The distinct values of a column, sorted ascending by `le`: the group
keys of a pandas `groupby` on that column. -/
def sortedKeys {α : Type} [DecidableEq α] (le : α → α → Bool) (l : List α) : List α :=
  isort le l.dedup

def boolToQ (b : Bool) : ℚ := if b then 1 else 0

/-- Mean of a pandas series: NaN (`none`) when the series is empty. -/
def meanQ (l : List ℚ) : Option ℚ :=
  if l.isEmpty then none else some (l.sum / l.length)

/-- Mean of a group that is nonempty by construction (every group-by group
holds at least one row); Lean division by a zero length would give 0 but the
case never occurs in any term below. -/
def groupMean (l : List ℚ) : ℚ := l.sum / l.length

/-- Round to the nearest integer, ties to even: Python `round` / numpy
rounding used by `Series.round`. -/
def roundHalfEven (x : ℚ) : ℤ :=
  let f := Int.floor x
  if 2 * x < 2 * f + 1 then f
  else if 2 * f + 1 < 2 * x then f + 1
  else if f % 2 = 0 then f else f + 1

/-- Round to `n` decimal places (`round(x, n)` / `.round(n)`). -/
def roundTo (n : ℕ) (x : ℚ) : ℚ := (roundHalfEven (x * 10 ^ n) : ℚ) / 10 ^ n

/-! The aggregators. -/

/-- Result of `calculate_summary_statistics` (lines 96-145).  Rates and the
average age are `none` exactly when pandas would produce NaN (mean over an
empty selection); `round(nan, 1)` is NaN again, so `none` propagates. -/
structure SummaryStats where
  total_patients : Nat
  patients_per_site : List (String × Nat)
  average_age : Option ℚ
  completion_rate : Option ℚ
  adverse_event_rate : Option ℚ
  completion_rate_with_ae : Option ℚ
  completion_rate_without_ae : Option ℚ
deriving DecidableEq

/-- `mean * 100` rounded to one decimal: the summary-level rate shape
(lines 123-134 with the rounding of lines 141-144). -/
def rate1 (l : List Bool) : Option ℚ :=
  (meanQ (l.map boolToQ)).map fun m => roundTo 1 (m * 100)

def calculate_summary_statistics (df : List CleanRow) : SummaryStats :=
  { total_patients := df.length
    patients_per_site :=
      (sortedKeys strLe (df.map (·.trial_site))).map fun s =>
        (s, (df.filter fun r => decide (r.trial_site = s)).length)
    average_age := (meanQ (df.map (·.age))).map (roundTo 1)
    completion_rate := rate1 (df.map (·.completed_trial))
    adverse_event_rate := rate1 (df.map (·.adverse_event))
    completion_rate_with_ae :=
      rate1 ((df.filter (·.adverse_event)).map (·.completed_trial))
    completion_rate_without_ae :=
      rate1 ((df.filter fun r => !r.adverse_event).map (·.completed_trial)) }

/-- Per-site aggregates of `site_performance_analysis` (lines 166-178):
`.agg(...).round(3)` rounds the two means to 3 decimals, the rates are then
scaled by 100. -/
structure SiteStats where
  total_patients : Nat
  completed_count : Nat
  completion_rate : ℚ
  ae_count : Nat
  ae_rate : ℚ
  avg_age : ℚ
deriving DecidableEq

def siteStatsOf (members : List CleanRow) : SiteStats :=
  { total_patients := members.length
    completed_count := (members.filter (·.completed_trial)).length
    completion_rate :=
      roundTo 3 (groupMean (members.map fun r => boolToQ r.completed_trial)) * 100
    ae_count := (members.filter (·.adverse_event)).length
    ae_rate :=
      roundTo 3 (groupMean (members.map fun r => boolToQ r.adverse_event)) * 100
    avg_age := roundTo 3 (groupMean (members.map (·.age))) }

/-- The `groupby('trial_site')` table of line 166: one entry per distinct
site, keys ascending. -/
def siteGroups (df : List CleanRow) : List (String × SiteStats) :=
  (sortedKeys strLe (df.map (·.trial_site))).map fun s =>
    (s, siteStatsOf (df.filter fun r => decide (r.trial_site = s)))

/-- `site_performance_analysis` (lines 148-184): the grouped table sorted by
completion rate descending (line 181).  The embedding's sort is stable on
the key-ascending grouped table, which is what numpy's sort produces for
the small group counts involved (argsort of the reversed array, reversed). -/
def site_performance_analysis (df : List CleanRow) : List (String × SiteStats) :=
  isort (fun a b => decide (b.2.completion_rate ≤ a.2.completion_rate)) (siteGroups df)

/-- `site_performance_analysis` at frame level: `df.groupby('trial_site')`
raises `KeyError` when the site column was dropped during cleaning, and the
`.agg` raises on a dropped `patient_id`; nothing in analytics.py catches
either. -/
def site_performance_analysisF (fr : Frame) : Except String (List (String × SiteStats)) :=
  if !fr.hasSite then .error "KeyError: trial_site"
  else if !fr.hasPid then .error "KeyError: patient_id"
  else .ok (site_performance_analysis fr.rows)

/-- Per-age-group aggregates of `age_group_analysis` (lines 206-218):
the grouped column is categorical, so all four categories appear, an empty
category with count 0 and NaN statistics. -/
structure AgeGroupStats where
  count : Nat
  completion_rate : Option ℚ
  ae_rate : Option ℚ
  min_age : Option ℚ
  max_age : Option ℚ
  avg_age : Option ℚ
deriving DecidableEq

/-- `mean` rounded to 3 decimals then scaled by 100: the per-group rate
shape of lines 206-218 (and 243-254). -/
def rate3 (l : List Bool) : Option ℚ :=
  (meanQ (l.map boolToQ)).map fun m => roundTo 3 m * 100

/-- The fixed category domain of the `age_group` column, in categorical
order. -/
def ageGroups : List AgeGroup := [.g18_30, .g31_50, .g51_70, .g71_80]

/-- `age_group_analysis` (lines 187-221).  Rows whose `age_group` is the
null category are not members of any group: pandas `groupby` drops null
keys. -/
def age_group_analysis (df : List CleanRow) : List (AgeGroup × AgeGroupStats) :=
  ageGroups.map fun g =>
    let members := df.filter fun r => decide (r.age_group = some g)
    (g, { count := members.length
          completion_rate := rate3 (members.map (·.completed_trial))
          ae_rate := rate3 (members.map (·.adverse_event))
          min_age := ((members.map (·.age)).min?).map (roundTo 3)
          max_age := ((members.map (·.age)).max?).map (roundTo 3)
          avg_age := (meanQ (members.map (·.age))).map (roundTo 3) })

/-- Per-month aggregates of `temporal_analysis` (lines 243-254). -/
structure MonthStats where
  enrollments : Nat
  completion_rate : ℚ
  ae_rate : ℚ
deriving DecidableEq

/-- `temporal_analysis` (lines 224-257): grouped by `enrollment_month`,
only months present in the data appear, keys ascending. -/
def temporal_analysis (df : List CleanRow) : List (Nat × MonthStats) :=
  (sortedKeys natLe (df.map (·.enrollment_month))).map fun m =>
    let members := df.filter fun r => decide (r.enrollment_month = m)
    (m, { enrollments := members.length
          completion_rate :=
            roundTo 3 (groupMean (members.map fun r => boolToQ r.completed_trial)) * 100
          ae_rate :=
            roundTo 3 (groupMean (members.map fun r => boolToQ r.adverse_event)) * 100 })

/-! Correlation analysis (lines 260-300). -/

/-- Sum of cross-deviations from the means, the numerator kernel of the
pandas Pearson computation. -/
def crossdev (xs ys : List ℚ) : ℚ :=
  ((xs.zip ys).map fun p => (p.1 - groupMean xs) * (p.2 - groupMean ys)).sum

/-- Sum of squared deviations from the mean (`ssqdm` in pandas `nancorr`). -/
def ssdev (l : List ℚ) : ℚ := crossdev l l

/-- Pearson correlation of two equally long columns, as pandas `nancorr`
computes it: NaN (`none`) when the divisor `sqrt(ssdev x * ssdev y)` is
zero, i.e. when either column has zero variance (including the 0- and
1-row cases). -/
noncomputable def pearson (xs ys : List ℚ) : Option ℝ :=
  if ssdev xs * ssdev ys = 0 then none
  else some ((crossdev xs ys : ℝ) / Real.sqrt ((ssdev xs : ℝ) * (ssdev ys : ℝ)))

/-- The one-hot indicator columns `pd.get_dummies(df.trial_site, prefix='site')`
produces (line 292): one column per distinct site value, in ascending order
of the value (pandas sorts the categories). -/
def site_dummy_columns (df : List CleanRow) : List String :=
  (sortedKeys strLe (df.map (·.trial_site))).map fun s => "site_" ++ s

/-- The numeric columns selected at line 296, with the site dummies; the
enrollment month is recomputed from the date as at line 288. -/
def corrColumns (df : List CleanRow) : List (String × List ℚ) :=
  [("age", df.map (·.age)),
   ("completed_trial", df.map fun r => boolToQ r.completed_trial),
   ("adverse_event", df.map fun r => boolToQ r.adverse_event),
   ("enrollment_month", df.map fun r => (r.enrollment_date.month : ℚ))]
  ++ (sortedKeys strLe (df.map (·.trial_site))).map fun s =>
       ("site_" ++ s, df.map fun r => boolToQ (decide (r.trial_site = s)))

/-- `correlation_analysis` (lines 260-300) as a function of column indices:
entry (i, j) of the matrix `corr_data[numeric_cols].corr()`. -/
noncomputable def correlation_analysis (df : List CleanRow) (i j : Nat) : Option ℝ :=
  match (corrColumns df)[i]?, (corrColumns df)[j]? with
  | some ci, some cj => pearson ci.2 cj.2
  | _, _ => none

instance {ε α : Type} [DecidableEq ε] [DecidableEq α] : DecidableEq (Except ε α) :=
  fun a b =>
    match a, b with
    | .ok x, .ok y =>
        decidable_of_iff (x = y) ⟨fun h => by rw [h], fun h => by injection h⟩
    | .error x, .error y =>
        decidable_of_iff (x = y) ⟨fun h => by rw [h], fun h => by injection h⟩
    | .ok _, .error _ => isFalse (by intro h; cases h)
    | .error _, .ok _ => isFalse (by intro h; cases h)

/-! Concrete rows and tables used as witnesses and counterexamples below. -/

/-- A cleaned row with its two derived columns computed consistently, the
way `load_data` produces them. -/
def mkRow (pid site : String) (d : Date) (a : ℚ) (ae ct : Bool) : CleanRow :=
  { patient_id := pid, trial_site := site, enrollment_date := d, age := a,
    adverse_event := ae, completed_trial := ct, age_group := ageGroupOf a,
    enrollment_month := d.month }

/-- A raw row whose age 150 falls outside every `pd.cut` bin. -/
def rawAge150 : RawRow := ⟨"P1", "Boston", "2024-01-15", "150", "no", "yes"⟩

def rowAge150 : CleanRow := mkRow "P1" "Boston" ⟨2024, 1, 15⟩ 150 false true

/-- A fully valid raw row. -/
def rawValid : RawRow := ⟨"P9", "Boston", "2024-03-15", "42", "no", "yes"⟩

def rowValid : CleanRow := mkRow "P9" "Boston" ⟨2024, 3, 15⟩ 42 false true

/-- A one-row cleaned table whose age is outside `(0, 100]`. -/
def dfOutOfRange : List CleanRow := [mkRow "P1" "Boston" ⟨2024, 1, 10⟩ 150 false true]

/-- The 3-row fixture of spec section 8: Boston/25/no-AE/completed,
Boston/65/AE/not-completed, Chicago/40/no-AE/completed. -/
def dfFixture : List CleanRow :=
  [mkRow "P1" "Boston" ⟨2024, 1, 10⟩ 25 false true,
   mkRow "P2" "Boston" ⟨2024, 2, 11⟩ 65 true false,
   mkRow "P3" "Chicago" ⟨2024, 3, 12⟩ 40 false true]

/-- A raw row with decorated boolean fields: `"YES "` and `" 0 "`. -/
def rawBools : RawRow := ⟨"P4", "Boston", "2024-05-20", "33", "YES ", " 0 "⟩

def rowBools : CleanRow := mkRow "P4" "Boston" ⟨2024, 5, 20⟩ 33 true false

/-- A one-row cleaned table with no adverse-event records. -/
def dfNoAE : List CleanRow := [mkRow "P1" "Boston" ⟨2024, 1, 10⟩ 40 false true]

/-- Raw input whose `trial_site` column is entirely missing markers. -/
def rawNoSite : List RawRow :=
  [⟨"P1", "", "2024-01-15", "30", "no", "yes"⟩,
   ⟨"P2", " ", "2024-02-10", "45", "no", "no"⟩]

def rowNoSite1 : CleanRow := mkRow "P1" "" ⟨2024, 1, 15⟩ 30 false true

def rowNoSite2 : CleanRow := mkRow "P2" " " ⟨2024, 2, 10⟩ 45 false false

/-- Two sites with equal completion rates, first seen in anti-alphabetical
order. -/
def dfTieZA : List CleanRow :=
  [mkRow "P1" "Zebra" ⟨2024, 1, 10⟩ 30 false true,
   mkRow "P2" "Alpha" ⟨2024, 1, 10⟩ 30 false true]

/-- Two rows with distinct ages, for a nonzero-variance age column. -/
def dfTwoAges : List CleanRow :=
  [mkRow "P1" "Boston" ⟨2024, 1, 10⟩ 25 false true,
   mkRow "P2" "Boston" ⟨2024, 2, 11⟩ 65 true false]

/-- Two sites first seen in anti-alphabetical order. -/
def dfSitesZA : List CleanRow :=
  [mkRow "P1" "Zebra" ⟨2024, 1, 10⟩ 30 false true,
   mkRow "P2" "Alpha" ⟨2024, 2, 11⟩ 45 false true]

/-- A three-row, two-site cleaned table. -/
def dfTwoSites : List CleanRow :=
  [mkRow "P1" "Chicago" ⟨2024, 1, 10⟩ 30 false true,
   mkRow "P2" "Boston" ⟨2024, 2, 11⟩ 45 false true,
   mkRow "P3" "Chicago" ⟨2024, 3, 12⟩ 50 true false]

end Clinical

namespace Clinical

/-! General lemmas about the insertion sort. -/

theorem insort_perm {α : Type} (le : α → α → Bool) (x : α) :
    ∀ l : List α, (insort le x l).Perm (x :: l) := by
  intro l
  induction l with
  | nil => simp [insort]
  | cons y ys ih =>
    by_cases h : le x y = true
    · simp [insort, h]
    · simp only [insort, h, if_false, Bool.false_eq_true]
      exact (List.Perm.cons y ih).trans (List.Perm.swap x y ys)

theorem isort_perm {α : Type} (le : α → α → Bool) :
    ∀ l : List α, (isort le l).Perm l := by
  intro l
  induction l with
  | nil => simp [isort]
  | cons x xs ih =>
    exact (insort_perm le x (isort le xs)).trans (List.Perm.cons x ih)

theorem mem_isort {α : Type} (le : α → α → Bool) (l : List α) (a : α) :
    a ∈ isort le l ↔ a ∈ l :=
  (isort_perm le l).mem_iff

theorem pairwise_insort {α : Type} (le : α → α → Bool)
    (htot : ∀ a b, le a b = true ∨ le b a = true)
    (htrans : ∀ {a b c}, le a b = true → le b c = true → le a c = true)
    (x : α) : ∀ l : List α, l.Pairwise (fun a b => le a b = true) →
    (insort le x l).Pairwise (fun a b => le a b = true) := by
  intro l
  induction l with
  | nil => simp [insort]
  | cons y ys ih =>
    intro hp
    rw [List.pairwise_cons] at hp
    by_cases h : le x y = true
    · simp only [insort, h, if_true]
      rw [List.pairwise_cons]
      refine ⟨?_, List.pairwise_cons.mpr hp⟩
      intro z hz
      rcases List.mem_cons.mp hz with rfl | hz
      · exact h
      · exact htrans h (hp.1 z hz)
    · simp only [insort, h, if_false, Bool.false_eq_true]
      rw [List.pairwise_cons]
      refine ⟨?_, ih hp.2⟩
      intro z hz
      rcases List.mem_cons.mp ((insort_perm le x ys).mem_iff.mp hz) with rfl | hz
      · rcases htot z y with h' | h'
        · exact absurd h' h
        · exact h'
      · exact hp.1 z hz

theorem pairwise_isort {α : Type} (le : α → α → Bool)
    (htot : ∀ a b, le a b = true ∨ le b a = true)
    (htrans : ∀ {a b c}, le a b = true → le b c = true → le a c = true)
    (l : List α) : (isort le l).Pairwise (fun a b => le a b = true) := by
  induction l with
  | nil => simp [isort]
  | cons x xs ih => exact pairwise_insort le htot htrans x (isort le xs) ih

/-! The code-point order on strings is total and transitive. -/

theorem lexLe_total : ∀ as bs : List Char, lexLe as bs = true ∨ lexLe bs as = true := by
  intro as
  induction as with
  | nil => intro bs; left; simp [lexLe]
  | cons a as ih =>
    intro bs
    cases bs with
    | nil => right; simp [lexLe]
    | cons b bs =>
      by_cases h1 : a.toNat < b.toNat
      · left; simp [lexLe, h1]
      · by_cases h2 : b.toNat < a.toNat
        · right; simp [lexLe, h1, h2]
        · rcases ih bs with h | h
          · left; simp [lexLe, h1, h2, h]
          · right; simp [lexLe, h1, h2, h]

theorem lexLe_trans : ∀ as bs cs : List Char,
    lexLe as bs = true → lexLe bs cs = true → lexLe as cs = true := by
  intro as
  induction as with
  | nil => intro bs cs _ _; simp [lexLe]
  | cons a as ih =>
    intro bs cs hab hbc
    cases bs with
    | nil => simp [lexLe] at hab
    | cons b bs =>
      cases cs with
      | nil => simp [lexLe] at hbc
      | cons c cs =>
        simp only [lexLe] at hab hbc ⊢
        by_cases h1 : a.toNat < b.toNat
        · by_cases h2 : b.toNat < c.toNat
          · have hac : a.toNat < c.toNat := by omega
            simp [hac]
          · by_cases h4 : c.toNat < b.toNat
            · simp [h2, h4] at hbc
            · have hac : a.toNat < c.toNat := by omega
              simp [hac]
        · by_cases h3 : b.toNat < a.toNat
          · simp [h1, h3] at hab
          · by_cases h2 : b.toNat < c.toNat
            · have hac : a.toNat < c.toNat := by omega
              simp [hac]
            · by_cases h4 : c.toNat < b.toNat
              · simp [h2, h4] at hbc
              · have hac1 : ¬(a.toNat < c.toNat) := by omega
                have hac2 : ¬(c.toNat < a.toNat) := by omega
                simp only [h1, h3, if_false] at hab
                simp only [h2, h4, if_false] at hbc
                simp [hac1, hac2, ih bs cs hab hbc]

theorem strLe_total : ∀ a b : String, strLe a b = true ∨ strLe b a = true := by
  intro a b; exact lexLe_total a.data b.data

theorem strLe_trans : ∀ {a b c : String},
    strLe a b = true → strLe b c = true → strLe a c = true := by
  intro a b c hab hbc; exact lexLe_trans a.data b.data c.data hab hbc

theorem natLe_total : ∀ a b : Nat, natLe a b = true ∨ natLe b a = true := by
  intro a b
  rcases Nat.le_total a b with h | h
  · left; simpa [natLe] using h
  · right; simpa [natLe] using h

theorem natLe_trans : ∀ {a b c : Nat}, natLe a b = true → natLe b c = true → natLe a c = true := by
  intro a b c hab hbc
  simp only [natLe, decide_eq_true_eq] at hab hbc ⊢
  omega

/-! Lemmas about `sortedKeys`. -/

theorem sortedKeys_perm_dedup {α : Type} [DecidableEq α] (le : α → α → Bool) (l : List α) :
    (sortedKeys le l).Perm l.dedup :=
  isort_perm le l.dedup

theorem mem_sortedKeys {α : Type} [DecidableEq α] (le : α → α → Bool) (l : List α) (a : α) :
    a ∈ sortedKeys le l ↔ a ∈ l :=
  ((sortedKeys_perm_dedup le l).mem_iff).trans List.mem_dedup

theorem nodup_sortedKeys {α : Type} [DecidableEq α] (le : α → α → Bool) (l : List α) :
    (sortedKeys le l).Nodup :=
  ((sortedKeys_perm_dedup le l).symm.nodup (List.nodup_dedup l))

theorem pairwise_sortedKeys {α : Type} [DecidableEq α] (le : α → α → Bool)
    (htot : ∀ a b, le a b = true ∨ le b a = true)
    (htrans : ∀ {a b c}, le a b = true → le b c = true → le a c = true)
    (l : List α) : (sortedKeys le l).Pairwise (fun a b => le a b = true) :=
  pairwise_isort le htot htrans l.dedup

/-- Keys of a string column are strictly ascending in code-point order. -/
theorem pairwise_strLt_sortedKeys (l : List String) :
    (sortedKeys strLe l).Pairwise strLt := by
  have h1 := pairwise_sortedKeys strLe strLe_total (fun hab hbc => strLe_trans hab hbc) l
  have h2 : (sortedKeys strLe l).Pairwise (· ≠ ·) := nodup_sortedKeys strLe l
  exact (h1.and h2).imp fun h => ⟨h.1, h.2⟩

/-- Keys of a numeric column are strictly ascending. -/
theorem pairwise_lt_sortedKeys_nat (l : List Nat) :
    (sortedKeys natLe l).Pairwise (· < ·) := by
  have h1 := pairwise_sortedKeys natLe natLe_total (fun hab hbc => natLe_trans hab hbc) l
  have h2 : (sortedKeys natLe l).Pairwise (· ≠ ·) := nodup_sortedKeys natLe l
  refine (h1.and h2).imp fun h => ?_
  have := h.1
  simp only [natLe, decide_eq_true_eq] at this
  omega

/-! Group counts partition the table. -/

theorem length_filter_add_length_filter_not {α : Type} (p : α → Bool) (l : List α) :
    (l.filter p).length + (l.filter fun a => !(p a)).length = l.length := by
  induction l with
  | nil => simp
  | cons a l ih =>
    cases h : p a <;> simp [List.filter_cons, h] <;> omega

/-- Summing, over a duplicate-free list of keys covering a table, the sizes
of the per-key groups gives back the size of the table. -/
theorem sum_length_filter_eq {α κ : Type} [DecidableEq κ] (proj : α → κ) :
    ∀ (keys : List κ) (l : List α), keys.Nodup → (∀ x ∈ l, proj x ∈ keys) →
    ((keys.map fun k => (l.filter fun x => decide (proj x = k)).length).sum = l.length) := by
  intro keys
  induction keys with
  | nil =>
    intro l _ hcov
    have : l = [] := by
      cases l with
      | nil => rfl
      | cons a l => exact absurd (hcov a (List.mem_cons_self a l)) (List.not_mem_nil _)
    subst this
    simp
  | cons k ks ih =>
    intro l hnd hcov
    rw [List.nodup_cons] at hnd
    have hsplit := length_filter_add_length_filter_not (fun x => decide (proj x = k)) l
    have hrest : ∀ k' ∈ ks,
        (l.filter fun x => decide (proj x = k')).length
          = ((l.filter fun x => !(decide (proj x = k))).filter fun x => decide (proj x = k')).length := by
      intro k' hk'
      rw [List.filter_filter]
      refine congrArg List.length (List.filter_congr ?_).symm
      intro x _
      by_cases hx : proj x = k'
      · have hk'k : ¬ (k' = k) := fun hkk => hnd.1 (hkk ▸ hk')
        simp [hx, hk'k]
      · simp [hx]
    have hcov' : ∀ x ∈ (l.filter fun x => !(decide (proj x = k))), proj x ∈ ks := by
      intro x hx
      rw [List.mem_filter] at hx
      rcases List.mem_cons.mp (hcov x hx.1) with h | h
      · exfalso; revert hx; simp [h]
      · exact h
    have hih := ih (l.filter fun x => !(decide (proj x = k))) hnd.2 hcov'
    calc ((k :: ks).map fun k => (l.filter fun x => decide (proj x = k)).length).sum
        = (l.filter fun x => decide (proj x = k)).length
            + (ks.map fun k' => (l.filter fun x => decide (proj x = k')).length).sum := by
          simp
      _ = (l.filter fun x => decide (proj x = k)).length
            + (ks.map fun k' =>
                ((l.filter fun x => !(decide (proj x = k))).filter
                  fun x => decide (proj x = k')).length).sum := by
          rw [List.map_congr_left hrest]
      _ = (l.filter fun x => decide (proj x = k)).length
            + (l.filter fun x => !(decide (proj x = k))).length := by rw [hih]
      _ = l.length := hsplit

/-! Stability of the completion-rate sort: sorting a key-ordered list by
rate descending keeps tied entries in key order. -/

theorem insort_rate_pairwise {α : Type} (rate : α → ℚ) (R : α → α → Prop) (x : α)
    (hR : ∀ a b, R a b → rate b ≤ rate a) :
    ∀ m : List α, m.Pairwise R →
    (∀ y ∈ m, (rate y ≤ rate x → R x y) ∧ (¬ rate y ≤ rate x → R y x)) →
    (insort (fun a b => decide (rate b ≤ rate a)) x m).Pairwise R := by
  intro m
  induction m with
  | nil => intro _ _; simp [insort]
  | cons y ys ih =>
    intro hm hx
    rw [List.pairwise_cons] at hm
    by_cases hle : rate y ≤ rate x
    · simp only [insort]
      rw [if_pos (by simp [hle])]
      rw [List.pairwise_cons]
      refine ⟨?_, List.pairwise_cons.mpr hm⟩
      intro z hz
      rcases List.mem_cons.mp hz with rfl | hz
      · exact (hx z (List.mem_cons_self z ys)).1 hle
      · have hzy : rate z ≤ rate y := hR y z (hm.1 z hz)
        exact (hx z (List.mem_cons_of_mem y hz)).1 (hzy.trans hle)
    · simp only [insort]
      rw [if_neg (by simp [hle])]
      rw [List.pairwise_cons]
      refine ⟨?_, ih hm.2 fun z hz => hx z (List.mem_cons_of_mem y hz)⟩
      intro z hz
      rcases List.mem_cons.mp
        ((insort_perm (fun a b => decide (rate b ≤ rate a)) x ys).mem_iff.mp hz) with rfl | hz
      · exact (hx y (List.mem_cons_self y ys)).2 hle
      · exact hm.1 z hz

/-- Sorting by rate descending with the stable insertion sort: the result is
pairwise ordered by rate descending, with ties kept in the strict key order
of the input. -/
theorem isort_rate_pairwise {α : Type} (rate : α → ℚ) (K : α → α → Prop) :
    ∀ l : List α, l.Pairwise K →
    (isort (fun a b => decide (rate b ≤ rate a)) l).Pairwise
      (fun a b => rate b ≤ rate a ∧ (rate a = rate b → K a b)) := by
  intro l
  induction l with
  | nil => intro _; simp [isort]
  | cons x xs ih =>
    intro hl
    rw [List.pairwise_cons] at hl
    refine insort_rate_pairwise rate _ x (fun a b h => h.1) (isort _ xs) (ih hl.2) ?_
    intro y hy
    have hyxs : y ∈ xs := (mem_isort _ xs y).mp hy
    constructor
    · intro hle
      exact ⟨hle, fun _ => hl.1 y hyxs⟩
    · intro hgt
      push_neg at hgt
      exact ⟨le_of_lt hgt, fun heq => absurd heq (ne_of_gt hgt)⟩

/-! Lemmas about the Pearson kernel. -/

theorem crossdev_comm (xs ys : List ℚ) : crossdev xs ys = crossdev ys xs := by
  unfold crossdev
  rw [← List.zip_swap xs ys, List.map_map]
  refine congrArg List.sum (List.map_congr_left ?_)
  intro p _
  simp [Function.comp, mul_comm]

theorem mem_zip_self_eq {α : Type} : ∀ (l : List α) (p : α × α), p ∈ l.zip l → p.1 = p.2 := by
  intro l
  induction l with
  | nil => intro p hp; simp [List.zip] at hp
  | cons a l ih =>
    intro p hp
    rcases List.mem_cons.mp hp with rfl | hp
    · rfl
    · exact ih p hp

theorem ssdev_nonneg (l : List ℚ) : 0 ≤ ssdev l := by
  unfold ssdev crossdev
  refine List.sum_nonneg ?_
  intro x hx
  rcases List.mem_map.mp hx with ⟨p, hp, rfl⟩
  have := mem_zip_self_eq l p hp
  rw [this]
  exact mul_self_nonneg _

theorem pearson_comm (xs ys : List ℚ) : pearson xs ys = pearson ys xs := by
  unfold pearson
  rw [crossdev_comm ys xs, mul_comm (ssdev ys) (ssdev xs),
    mul_comm ((ssdev ys : ℝ)) ((ssdev xs : ℝ))]

theorem pearson_self (xs : List ℚ) (h : ssdev xs ≠ 0) : pearson xs xs = some 1 := by
  unfold pearson
  rw [if_neg (by simpa [mul_self_eq_zero] using h)]
  have hnn : (0 : ℝ) ≤ (ssdev xs : ℝ) := by exact_mod_cast ssdev_nonneg xs
  have hsq : Real.sqrt ((ssdev xs : ℝ) * (ssdev xs : ℝ)) = (ssdev xs : ℝ) :=
    Real.sqrt_mul_self hnn
  have hne : ((ssdev xs : ℝ)) ≠ 0 := by exact_mod_cast h
  rw [show crossdev xs xs = ssdev xs from rfl, hsq, div_self hne]

/-! Lemmas about the parsers and the age binning. -/

theorem parseDate_month_bounds {s : String} {d : Date} (h : parseDate s = some d) :
    1 ≤ d.month ∧ d.month ≤ 12 := by
  unfold parseDate at h
  split at h
  · split at h
    · split at h
      · rename_i y m dd heq hif
        injection h with h
        subst h
        simp only [Bool.and_eq_true, decide_eq_true_eq] at hif
        exact ⟨hif.1.1.1, hif.1.1.2⟩
      · exact absurd h (by simp)
    · exact absurd h (by simp)
  · exact absurd h (by simp)

theorem ageGroupOf_eq_none_iff (a : ℚ) : ageGroupOf a = none ↔ ¬ (0 < a ∧ a ≤ 100) := by
  unfold ageGroupOf
  split_ifs with h1 h2 h3 h4 h5 <;> simp <;>
    first
      | exact ⟨by linarith, by linarith⟩
      | (intro h; linarith)

theorem mem_ageGroups (g : AgeGroup) : g ∈ ageGroups := by
  cases g <;> simp [ageGroups]

theorem parseBool_iff (s : String) :
    parseBool s = true ↔ lowerTrim s ∈ (["true", "1", "yes"] : List String) :=
  List.elem_iff

/-! Inversion lemmas for the cleaning pipeline. -/

theorem cleanRow_eq_some {kp ks : Bool} {r : RawRow} {c : CleanRow}
    (h : cleanRow kp ks r = some c) :
    ∃ d a, parseDate r.enrollment_date = some d ∧ parseNumber r.age = some a ∧
      c = { patient_id := r.patient_id, trial_site := r.trial_site, enrollment_date := d,
            age := a, adverse_event := parseBool r.adverse_event,
            completed_trial := parseBool r.completed_trial, age_group := ageGroupOf a,
            enrollment_month := d.month } := by
  unfold cleanRow at h
  split at h
  · exact absurd h (by simp)
  · split at h
    · rename_i d a hd ha
      injection h with h
      exact ⟨d, a, hd, ha, h.symm⟩
    · exact absurd h (by simp)

theorem load_data_ok {rows : List RawRow} {fr : Frame} (h : load_data rows = .ok fr) :
    fr.rows = rows.filterMap
      (cleanRow (colKept rows (·.patient_id)) (colKept rows (·.trial_site))) := by
  unfold load_data at h
  split at h
  · exact Except.noConfusion h
  · split at h
    · exact Except.noConfusion h
    · split at h
      · exact Except.noConfusion h
      · split at h
        · exact Except.noConfusion h
        · injection h with h
          rw [← h]

/-- A pandas mean is NaN exactly on an empty series. -/
theorem meanQ_eq_none_iff (l : List ℚ) : meanQ l = none ↔ l = [] := by
  unfold meanQ
  split <;> simp_all [List.isEmpty_iff]

/-- A summary-level rate is NaN exactly on an empty boolean column. -/
theorem rate1_eq_none_iff (l : List Bool) : rate1 l = none ↔ l = [] := by
  unfold rate1
  rw [Option.map_eq_none', meanQ_eq_none_iff, List.map_eq_nil_iff]

/-! The claims. -/

/-- C1 (counterexample): the claim says every cleaned record has
`age ∈ (0,100]` and a non-null four-label `age_group`; but `load_data` keeps
a row whose age is 150, with the null age-group category. -/
theorem C1_counterexample :
    load_data [rawAge150] = .ok ⟨true, true, [rowAge150]⟩ ∧
    ¬ (0 < rowAge150.age ∧ rowAge150.age ≤ 100) ∧ rowAge150.age_group = none := by
  refine ⟨by decide, ?_, by decide⟩
  intro h
  have : ¬ ((150 : ℚ) ≤ 100) := by norm_num
  exact this (by simpa [rowAge150, mkRow] using h.2)

/-- C1 (amended): every record cleaned by `load_data` has
`enrollment_month ∈ [1,12]` and boolean flags; its `age_group` is one of the
four labels whenever it is non-null, and it is null exactly when the age
lies outside `(0,100]` — such rows survive cleaning rather than being
dropped. -/
theorem C1_cleaning_invariant (rows : List RawRow) (fr : Frame)
    (h : load_data rows = .ok fr) :
    ∀ c ∈ fr.rows,
      (1 ≤ c.enrollment_month ∧ c.enrollment_month ≤ 12) ∧
      (∀ g, c.age_group = some g → g ∈ ageGroups) ∧
      (c.age_group = none ↔ ¬ (0 < c.age ∧ c.age ≤ 100)) := by
  intro c hc
  rw [load_data_ok h] at hc
  rcases List.mem_filterMap.mp hc with ⟨r, _, hcr⟩
  rcases cleanRow_eq_some hcr with ⟨d, a, hd, _, rfl⟩
  refine ⟨?_, fun g _ => mem_ageGroups g, ?_⟩
  · simpa using parseDate_month_bounds hd
  · simpa using ageGroupOf_eq_none_iff a

/-- C1 (witness): the invariant holds of the record cleaned from a concrete
valid raw row. -/
theorem C1_witness :
    load_data [rawValid] = .ok ⟨true, true, [rowValid]⟩ ∧
    ((1 ≤ rowValid.enrollment_month ∧ rowValid.enrollment_month ≤ 12) ∧
      (∀ g, rowValid.age_group = some g → g ∈ ageGroups) ∧
      (rowValid.age_group = none ↔ ¬ (0 < rowValid.age ∧ rowValid.age ≤ 100))) := by
  have h : load_data [rawValid] = .ok ⟨true, true, [rowValid]⟩ := by decide
  exact ⟨h, C1_cleaning_invariant [rawValid] _ h rowValid (by simp)⟩

/-- C2 (counterexample): for a cleaned one-row table whose single age is out
of range, the per-site counts sum to the table size, but the per-age-group
counts sum to 0 ≠ 1: pandas `groupby` drops the null `age_group` key. -/
theorem C2_counterexample :
    ((site_performance_analysis dfOutOfRange).map (fun p => p.2.total_patients)).sum = 1 ∧
    dfOutOfRange.length = 1 ∧
    ((age_group_analysis dfOutOfRange).map (fun p => p.2.count)).sum = 0 := by
  refine ⟨?_, by decide, ?_⟩
  · simp [site_performance_analysis, siteGroups, siteStatsOf, sortedKeys, isort, insort,
      dfOutOfRange, mkRow, List.dedup]
  · have hog : ageGroupOf 150 = none := by norm_num [ageGroupOf]
    simp [age_group_analysis, ageGroups, dfOutOfRange, mkRow, hog]

/-- C2 (amended): per-site counts and per-month counts each sum to the total
cleaned record count; per-age-group counts sum to the number of records with
a non-null `age_group` (equivalently, with age inside `(0,100]`), which can
fall short of the total. -/
theorem C2_count_partition (df : List CleanRow) :
    ((site_performance_analysis df).map (fun p => p.2.total_patients)).sum = df.length ∧
    ((temporal_analysis df).map (fun p => p.2.enrollments)).sum = df.length ∧
    ((age_group_analysis df).map (fun p => p.2.count)).sum
      = (df.filter fun r => decide (r.age_group ≠ none)).length := by
  refine ⟨?_, ?_, ?_⟩
  · have hperm : (site_performance_analysis df).Perm (siteGroups df) := isort_perm _ _
    rw [(hperm.map fun p => p.2.total_patients).sum_eq]
    have : (siteGroups df).map (fun p => p.2.total_patients)
        = (sortedKeys strLe (df.map (·.trial_site))).map
            fun s => (df.filter fun r => decide (r.trial_site = s)).length := by
      simp [siteGroups, siteStatsOf, List.map_map, Function.comp]
    rw [this]
    exact sum_length_filter_eq (·.trial_site) _ df (nodup_sortedKeys _ _)
      fun x hx => (mem_sortedKeys _ _ _).mpr (List.mem_map_of_mem _ hx)
  · have : (temporal_analysis df).map (fun p => p.2.enrollments)
        = (sortedKeys natLe (df.map (·.enrollment_month))).map
            fun m => (df.filter fun r => decide (r.enrollment_month = m)).length := by
      simp [temporal_analysis, List.map_map, Function.comp]
    rw [this]
    exact sum_length_filter_eq (·.enrollment_month) _ df (nodup_sortedKeys _ _)
      fun x hx => (mem_sortedKeys _ _ _).mpr (List.mem_map_of_mem _ hx)
  · have h1 : (age_group_analysis df).map (fun p => p.2.count)
        = ageGroups.map fun g => (df.filter fun r => decide (r.age_group = some g)).length := by
      simp [age_group_analysis, List.map_map, Function.comp]
    have h2 : ∀ g ∈ ageGroups,
        (df.filter fun r => decide (r.age_group = some g)).length
          = ((df.filter fun r => decide (r.age_group ≠ none)).filter
              fun r => decide (r.age_group = some g)).length := by
      intro g _
      rw [List.filter_filter]
      refine congrArg List.length (List.filter_congr ?_).symm
      intro r _
      by_cases hr : r.age_group = some g
      · simp [hr]
      · simp [hr]
    have h3 : (ageGroups.map fun g =>
          ((df.filter fun r => decide (r.age_group ≠ none)).filter
            fun r => decide (r.age_group = some g)).length)
        = ((ageGroups.map some).map fun k =>
            ((df.filter fun r => decide (r.age_group ≠ none)).filter
              fun r => decide (r.age_group = k)).length) := by
      rw [List.map_map]; rfl
    rw [h1, List.map_congr_left h2, h3]
    refine sum_length_filter_eq (fun r : CleanRow => r.age_group) (ageGroups.map some)
      (df.filter fun r => decide (r.age_group ≠ none)) (by decide) ?_
    intro x hx
    rw [List.mem_filter] at hx
    have hne : x.age_group ≠ none := by simpa using hx.2
    rcases Option.ne_none_iff_exists.mp hne with ⟨g, hg⟩
    show x.age_group ∈ List.map some ageGroups
    rw [← hg]
    exact List.mem_map_of_mem some (mem_ageGroups g)

/-- C3: on the 3-row fixture (Boston/25/no-AE/completed,
Boston/65/AE/not-completed, Chicago/40/no-AE/completed),
`calculate_summary_statistics` returns total_patients 3, completion rate
66.7, adverse-event rate 33.3, completion rate 0.0 with and 100.0 without
adverse events. -/
theorem C3_fixture_summary :
    (calculate_summary_statistics dfFixture).total_patients = 3 ∧
    (calculate_summary_statistics dfFixture).completion_rate = some (667 / 10) ∧
    (calculate_summary_statistics dfFixture).adverse_event_rate = some (333 / 10) ∧
    (calculate_summary_statistics dfFixture).completion_rate_with_ae = some 0 ∧
    (calculate_summary_statistics dfFixture).completion_rate_without_ae = some 100 := by
  refine ⟨by decide, ?_, ?_, ?_, ?_⟩ <;>
    norm_num [calculate_summary_statistics, rate1, meanQ, boolToQ, roundTo, roundHalfEven,
      dfFixture, mkRow, List.filter]

/-- C4: a row that survives the missing-value drops gets `true` for a
boolean column exactly when the raw value, lower-cased and trimmed, is one
of `"true"`, `"1"`, `"yes"`; everything else becomes `false`, with no
invalid state. -/
theorem C4_bool_normalisation (kp ks : Bool) (r : RawRow) (c : CleanRow)
    (h : cleanRow kp ks r = some c) :
    (c.adverse_event = true ↔ lowerTrim r.adverse_event ∈ (["true", "1", "yes"] : List String)) ∧
    (c.completed_trial = true ↔
      lowerTrim r.completed_trial ∈ (["true", "1", "yes"] : List String)) := by
  rcases cleanRow_eq_some h with ⟨d, a, _, _, rfl⟩
  exact ⟨parseBool_iff r.adverse_event, parseBool_iff r.completed_trial⟩

/-- C4 (witness): the raw values `"YES "` and `" 0 "` clean to `true` and
`false` respectively. -/
theorem C4_witness :
    cleanRow true true rawBools = some rowBools ∧
    ((rowBools.adverse_event = true ↔
        lowerTrim rawBools.adverse_event ∈ (["true", "1", "yes"] : List String)) ∧
      (rowBools.completed_trial = true ↔
        lowerTrim rawBools.completed_trial ∈ (["true", "1", "yes"] : List String))) := by
  have h : cleanRow true true rawBools = some rowBools := by decide
  exact ⟨h, C4_bool_normalisation true true rawBools rowBools h⟩

/-- C5 (counterexample): the claim asserts that whenever some stratum is
empty every rate is the NaN sentinel; but on a table with no adverse-event
records the overall completion rate is a plain 100.0, not NaN. -/
theorem C5_counterexample :
    (dfNoAE.filter (·.adverse_event)).length = 0 ∧
    (calculate_summary_statistics dfNoAE).completion_rate = some 100 := by
  refine ⟨by decide, ?_⟩
  norm_num [calculate_summary_statistics, rate1, meanQ, boolToQ, roundTo, roundHalfEven,
    dfNoAE, mkRow]

/-- C5 (amended): a rate is the NaN sentinel (`none`) exactly when its own
denominator set is empty — the overall rates and the average age iff the
table is empty, the stratified rates iff their stratum is empty — so rates
over non-empty sets are always ordinary numbers.  The computation is total:
it never raises. -/
theorem C5_empty_strata (df : List CleanRow) :
    ((calculate_summary_statistics df).average_age = none ↔ df = []) ∧
    ((calculate_summary_statistics df).completion_rate = none ↔ df = []) ∧
    ((calculate_summary_statistics df).adverse_event_rate = none ↔ df = []) ∧
    ((calculate_summary_statistics df).completion_rate_with_ae = none
      ↔ df.filter (·.adverse_event) = []) ∧
    ((calculate_summary_statistics df).completion_rate_without_ae = none
      ↔ (df.filter fun r => !r.adverse_event) = []) := by
  refine ⟨?_, ?_, ?_, ?_, ?_⟩
  · simp only [calculate_summary_statistics]
    rw [Option.map_eq_none', meanQ_eq_none_iff, List.map_eq_nil_iff]
  · simp only [calculate_summary_statistics]
    rw [rate1_eq_none_iff, List.map_eq_nil_iff]
  · simp only [calculate_summary_statistics]
    rw [rate1_eq_none_iff, List.map_eq_nil_iff]
  · simp only [calculate_summary_statistics]
    rw [rate1_eq_none_iff, List.map_eq_nil_iff]
  · simp only [calculate_summary_statistics]
    rw [rate1_eq_none_iff, List.map_eq_nil_iff]

/-- C5 (witness): on the empty table the overall completion rate is the
sentinel; on a concrete non-empty table with no adverse-event records the
stratified with-AE rate is the sentinel while the overall completion rate,
whose denominator is non-empty, is not. -/
theorem C5_witness :
    (calculate_summary_statistics ([] : List CleanRow)).completion_rate = none ∧
    (calculate_summary_statistics dfNoAE).completion_rate_with_ae = none ∧
    (calculate_summary_statistics dfNoAE).completion_rate ≠ none := by
  refine ⟨((C5_empty_strata []).2.1).mpr rfl, ((C5_empty_strata dfNoAE).2.2.2.1).mpr (by decide), ?_⟩
  intro h
  have hempty : dfNoAE = [] := ((C5_empty_strata dfNoAE).2.1).mp h
  exact absurd hempty (by simp [dfNoAE])

/-- C6: on input whose `trial_site` column is entirely missing, cleaning
drops the column (the rows survive), and site performance aggregation then
fails with the bare `KeyError` of `df.groupby('trial_site')` — there is no
distinct SchemaInvalid failure anywhere in the code, contrary to the
claim. -/
theorem C6_missing_site_keyerror :
    load_data rawNoSite = .ok ⟨true, false, [rowNoSite1, rowNoSite2]⟩ ∧
    site_performance_analysisF ⟨true, false, [rowNoSite1, rowNoSite2]⟩
      = .error "KeyError: trial_site" := by
  exact ⟨by decide, rfl⟩

/-- C7 (counterexample): two sites with equal completion rates, `"Zebra"`
first seen before `"Alpha"`: the result lists `"Alpha"` first — tied sites
appear in ascending label order (the group-by key order), not first-seen
order. -/
theorem C7_counterexample :
    (site_performance_analysis dfTieZA).map Prod.fst = ["Alpha", "Zebra"] ∧
    ((site_performance_analysis dfTieZA).map fun p => p.2.completion_rate) = [100, 100] ∧
    (dfTieZA.map (·.trial_site)).dedup = ["Zebra", "Alpha"] := by
  have hstats : ∀ pid site : String,
      (siteStatsOf [mkRow pid site ⟨2024, 1, 10⟩ 30 false true]).completion_rate = 100 := by
    intro pid site
    norm_num [siteStatsOf, groupMean, boolToQ, roundTo, roundHalfEven, mkRow]
  have hgroups : siteGroups dfTieZA =
      [("Alpha", siteStatsOf [mkRow "P2" "Alpha" ⟨2024, 1, 10⟩ 30 false true]),
       ("Zebra", siteStatsOf [mkRow "P1" "Zebra" ⟨2024, 1, 10⟩ 30 false true])] := by
    simp [siteGroups, sortedKeys, isort, insort, strLe, lexLe, dfTieZA, mkRow, List.dedup]
  refine ⟨?_, ?_, by decide⟩
  · simp only [site_performance_analysis]
    rw [hgroups]
    norm_num [isort, insort, hstats]
  · simp only [site_performance_analysis]
    rw [hgroups]
    norm_num [isort, insort, hstats]

/-- C7 (amended): the `site_performance_analysis` result is ordered by
completion rate descending, and two sites with equal completion rates
appear in ascending site-label (code-point lexicographic) order — the order
of the group-by keys under a stable sort — not in first-seen order. -/
theorem C7_sorted_by_rate (df : List CleanRow) :
    (site_performance_analysis df).Pairwise
      (fun a b => b.2.completion_rate ≤ a.2.completion_rate ∧
        (a.2.completion_rate = b.2.completion_rate → strLt a.1 b.1)) := by
  have hkeys := pairwise_strLt_sortedKeys (df.map (·.trial_site))
  have hgroups : (siteGroups df).Pairwise (fun a b => strLt a.1 b.1) := by
    unfold siteGroups
    exact List.pairwise_map.mpr hkeys
  exact isort_rate_pairwise (fun p => p.2.completion_rate)
    (fun a b => strLt a.1 b.1) (siteGroups df) hgroups

/-- C8: the correlation matrix is symmetric, and the diagonal entry of any
column with nonzero variance is exactly 1. -/
theorem C8_corr_matrix (df : List CleanRow) (i j : Nat) :
    correlation_analysis df i j = correlation_analysis df j i ∧
    (∀ col : String × List ℚ, (corrColumns df)[i]? = some col → ssdev col.2 ≠ 0 →
      correlation_analysis df i i = some 1) := by
  constructor
  · rcases h1 : (corrColumns df)[i]? with _ | ci <;>
      rcases h2 : (corrColumns df)[j]? with _ | cj <;>
      simp [correlation_analysis, h1, h2, pearson_comm]
  · intro col h hv
    simp only [correlation_analysis, h]
    exact pearson_self col.2 hv

/-- C8 (witness): on a table with two distinct ages, the age column has
nonzero variance and its diagonal correlation entry is 1. -/
theorem C8_witness :
    (corrColumns dfTwoAges)[0]? = some ("age", [25, 65]) ∧
    ssdev [(25 : ℚ), 65] ≠ 0 ∧
    correlation_analysis dfTwoAges 0 0 = some 1 := by
  have h1 : (corrColumns dfTwoAges)[0]? = some ("age", [25, 65]) := by
    norm_num [corrColumns, dfTwoAges, mkRow]
  have h2 : ssdev [(25 : ℚ), 65] ≠ 0 := by
    norm_num [ssdev, crossdev, groupMean, List.zip]
  exact ⟨h1, h2, (C8_corr_matrix dfTwoAges 0 0).2 ("age", [25, 65]) h1 h2⟩

/-- C9 (counterexample): sites first seen as `"Zebra"` then `"Alpha"`
produce dummy columns `site_Alpha, site_Zebra` — sorted by site value, not
in first-appearance order as the claim states. -/
theorem C9_counterexample :
    site_dummy_columns dfSitesZA = ["site_Alpha", "site_Zebra"] ∧
    (dfSitesZA.map (·.trial_site)).dedup = ["Zebra", "Alpha"] ∧
    site_dummy_columns dfSitesZA
      ≠ ((dfSitesZA.map (·.trial_site)).dedup.map fun s => "site_" ++ s) := by
  decide

/-- C9 (amended): `correlation_analysis` produces exactly one indicator
column per distinct `trial_site` value (no duplicates, every site covered),
but the columns appear in ascending order of the site value — pandas
`get_dummies` sorts the categories — not in first-appearance order. -/
theorem C9_dummy_columns (df : List CleanRow) :
    site_dummy_columns df
      = (sortedKeys strLe (df.map (·.trial_site))).map (fun s => "site_" ++ s) ∧
    (sortedKeys strLe (df.map (·.trial_site))).Pairwise strLt ∧
    (∀ s, s ∈ sortedKeys strLe (df.map (·.trial_site)) ↔ s ∈ df.map (·.trial_site)) ∧
    (site_dummy_columns df).Nodup := by
  refine ⟨rfl, pairwise_strLt_sortedKeys _, fun s => mem_sortedKeys _ _ s, ?_⟩
  have hinj : Function.Injective (fun s : String => "site_" ++ s) := by
    intro a b hab
    have hd := congrArg String.data hab
    rw [String.data_append, String.data_append] at hd
    exact String.ext (List.append_cancel_left hd)
  exact (nodup_sortedKeys strLe _).map hinj

/-- C10: `patients_per_site` is ordered by site name ascending (the pandas
group-by key order), each distinct site appearing once. -/
theorem C10_sites_sorted (df : List CleanRow) (hne : df ≠ []) :
    ((calculate_summary_statistics df).patients_per_site.map Prod.fst).Pairwise strLt ∧
    (∀ s, s ∈ (calculate_summary_statistics df).patients_per_site.map Prod.fst
        ↔ s ∈ df.map (·.trial_site)) := by
  have hmap : (calculate_summary_statistics df).patients_per_site.map Prod.fst
      = sortedKeys strLe (df.map (·.trial_site)) := by
    simp only [calculate_summary_statistics]
    rw [List.map_map]
    conv_rhs => rw [← List.map_id (sortedKeys strLe (df.map (·.trial_site)))]
    exact List.map_congr_left fun s _ => rfl
  rw [hmap]
  exact ⟨pairwise_strLt_sortedKeys _, fun s => mem_sortedKeys _ _ s⟩

/-- C10 (witness): on a concrete table with sites first seen as Chicago then
Boston, the summary's per-site list is in ascending site order. -/
theorem C10_witness :
    dfTwoSites ≠ [] ∧
    (((calculate_summary_statistics dfTwoSites).patients_per_site.map Prod.fst).Pairwise strLt ∧
      (∀ s, s ∈ (calculate_summary_statistics dfTwoSites).patients_per_site.map Prod.fst
          ↔ s ∈ dfTwoSites.map (·.trial_site))) := by
  have h : dfTwoSites ≠ [] := by simp [dfTwoSites]
  exact ⟨h, C10_sites_sorted dfTwoSites h⟩

end Clinical
